import Mathlib

/-
Shallow embedding of the Employee Task Management service (NestJS plus
TypeORM sources under src/): the credential manager (users.service.ts and
auth.service.ts) and the task query, update and statistics engine
(task.service.ts).

External primitives are modelled as function parameters: bcrypt hashing
and comparison, the JS date parser, and JWT signing. The relational store
is a list of records. A thrown exception is an error value; every service
operation throws before calling repository save on its failure paths, so
an error result leaves the store unchanged by construction.
-/

namespace TaskMgmt

/-- Task status from src/constant/task.enum.ts; values are the strings
pending, in_progress, completed. -/
inductive TaskStatus where
  | pending
  | in_progress
  | completed
deriving DecidableEq

/-- Task priority from src/constant/task.enum.ts. -/
inductive TaskPriority where
  | low
  | medium
  | high
  | urgent
deriving DecidableEq

/-- The string value of a status, as stored in the enum column. -/
def TaskStatus.toStr : TaskStatus → String
  | .pending => "pending"
  | .in_progress => "in_progress"
  | .completed => "completed"

/-- The values of the TaskStatus object, used by the includes checks. -/
def statusStrings : List String := ["pending", "in_progress", "completed"]

/-- Typed failure kinds raised by the services: the Nest exception classes
BadRequestException, UnauthorizedException, ConflictException,
NotFoundException and InternalServerErrorException, with their message. -/
inductive DomainError where
  | badRequest (msg : String)
  | unauthorized (msg : String)
  | conflict (msg : String)
  | notFound (msg : String)
  | internalError (msg : String)
deriving DecidableEq

/-- User row from src/users/entities/user.entity.ts. Timestamps are
integer epoch milliseconds; the password column holds the bcrypt hash. -/
structure User where
  id : String
  email : String
  firstName : String
  lastName : String
  password : String
  isActive : Bool
  createdAt : Int
  updatedAt : Int
deriving DecidableEq

/-- Task row from the tasks entity. dueDate and completedAt are nullable
timestamp columns, description is a nullable text column. -/
structure Task where
  id : String
  title : String
  description : Option String
  status : TaskStatus
  priority : TaskPriority
  dueDate : Option Int
  completedAt : Option Int
  userId : String
  createdAt : Int
  updatedAt : Int
deriving DecidableEq

/-- A character the JS regexp class backslash-s matches (space, tab,
newline, carriage return, vertical tab, form feed). -/
def isJsSpace (c : Char) : Bool :=
  c == ' ' || c == '\t' || c == '\n' || c == '\r' || c.toNat == 11 || c.toNat == 12

/-- One-or-more characters that are neither whitespace nor the at sign:
the repeated character class of the email regexp in users.service.ts. -/
def emailChunkOk (l : List Char) : Bool :=
  !l.isEmpty && l.all (fun c => !isJsSpace c && c != '@')

/-- The part after the at sign must be chunk-dot-chunk: no whitespace or
at sign anywhere, and a dot that is neither first nor last. -/
def emailDomainOk (l : List Char) : Bool :=
  l.all (fun c => !isJsSpace c && c != '@') && ((l.drop 1).dropLast.contains '.')

/-- Splitting a character list at every occurrence of a separator. -/
def splitOnChar (sep : Char) : List Char → List (List Char)
  | [] => [[]]
  | c :: cs =>
    let r := splitOnChar sep cs
    if c == sep then [] :: r
    else
      match r with
      | [] => [[c]]
      | h :: t => (c :: h) :: t

/-- The email format test of users.service.ts: the string splits at a
unique at sign into a valid chunk and a valid domain. -/
def emailRegexTest (s : String) : Bool :=
  match splitOnChar '@' s.data with
  | [a, b] => emailChunkOk a && emailDomainOk b
  | _ => false

/-- Removing leading and trailing whitespace, the JS trim. -/
def trimChars (l : List Char) : List Char :=
  ((l.dropWhile Char.isWhitespace).reverse.dropWhile Char.isWhitespace).reverse

/-- The JS trim on strings. -/
def strTrim (s : String) : String :=
  ⟨trimChars s.data⟩

/-- Email normalization used throughout users.service.ts:
toLowerCase followed by trim. -/
def normalizeEmail (s : String) : String :=
  strTrim ⟨s.data.map Char.toLower⟩

/-- The fields of the Partial User value accepted by UsersService.create. -/
structure RegisterData where
  email : String
  password : String
  firstName : String := ""
  lastName : String := ""
  isActive : Option Bool := none

/-- The stored account the repository builds and saves in create:
normalized email, hashed password, isActive defaulting to true, and the
id and timestamps assigned at save. -/
def mkUser (newId : String) (now : Int) (bhash : String → String) (d : RegisterData) : User :=
  { id := newId
    email := normalizeEmail d.email
    firstName := d.firstName
    lastName := d.lastName
    password := bhash d.password
    isActive := d.isActive.getD true
    createdAt := now
    updatedAt := now }

/-- UsersService.create: presence checks, email format check, password
length check, duplicate lookup by normalized email, then hash and save.
bhash models bcrypt.hash with cost 12; newId and now model the id and
timestamps the store assigns at save. -/
def usersCreate (bhash : String → String) (newId : String) (now : Int)
    (d : RegisterData) (db : List User) : Except DomainError (User × List User) :=
  if d.email = "" ∨ d.password = "" then
    .error (.badRequest "Email and password are required")
  else if emailRegexTest d.email = false then
    .error (.badRequest "Invalid email format")
  else if d.password.length < 6 then
    .error (.badRequest "Password must be at least 6 characters long")
  else
    match db.find? (fun u => u.email == normalizeEmail d.email) with
    | some _ => .error (.conflict "Email already exists")
    | none => .ok (mkUser newId now bhash d, db ++ [mkUser newId now bhash d])

/-- UsersService.findByEmail: presence check, email format check, then a
findOne on the normalized email. -/
def findByEmail (db : List User) (email : String) : Except DomainError (Option User) :=
  if email = "" then
    .error (.badRequest "Email is required")
  else if emailRegexTest email = false then
    .error (.badRequest "Invalid email format")
  else
    .ok (db.find? (fun u => u.email == normalizeEmail email))

/-- UsersService.validatePassword: presence checks, then bcrypt.compare.
malformed models the invalid-salt failure of bcrypt.compare on a hash that
is not a bcrypt digest; bcompare models its boolean comparison. -/
def validatePassword (malformed : String → Bool) (bcompare : String → String → Bool)
    (plain hash : String) : Except DomainError Bool :=
  if plain = "" ∨ hash = "" then
    .error (.badRequest "Both passwords are required for validation")
  else if malformed hash then
    .error (.internalError "Invalid password hash format")
  else
    .ok (bcompare plain hash)

/-- The user projection returned by AuthService.login next to the token. -/
structure AuthUserView where
  id : String
  email : String
  firstName : String
  lastName : String
deriving DecidableEq

/-- The success payload of AuthService.login. -/
structure LoginResult where
  accessToken : String
  user : AuthUserView
deriving DecidableEq

/-- AuthService.login: presence check, findByEmail, missing account and
inactive account and failed comparison each raise Unauthorized, then the
token is signed from the user id and email. Errors raised by the callees
propagate unchanged through the catch block. -/
def login (malformed : String → Bool) (bcompare : String → String → Bool)
    (sign : String → String → String) (db : List User)
    (email password : String) : Except DomainError LoginResult :=
  if email = "" ∨ password = "" then
    .error (.badRequest "Email and password are required")
  else
    match findByEmail db email with
    | .error e => .error e
    | .ok none => .error (.unauthorized "Invalid credentials")
    | .ok (some user) =>
      if user.isActive = false then
        .error (.unauthorized "Account is deactivated")
      else
        match validatePassword malformed bcompare password user.password with
        | .error e => .error e
        | .ok false => .error (.unauthorized "Invalid credentials")
        | .ok true =>
          let token := sign user.id user.email
          if token = "" then
            .error (.internalError "Failed to generate access token")
          else
            .ok { accessToken := token
                  user := { id := user.id, email := user.email
                            firstName := user.firstName, lastName := user.lastName } }

/-- FilterTasksDto: every field optional; page defaults to 1 and limit to
10 in the destructuring inside findAll. The status arrives as a raw query
string and is validated against the enum values at run time. -/
structure FilterTasksDto where
  status : Option String := none
  dueDate : Option String := none
  search : Option String := none
  page : Option Int := none
  limit : Option Int := none

/-- True when the status filter branch of findAll throws: the value is
truthy (a non-empty string) and not among the enum values. -/
def statusInvalid (f : FilterTasksDto) : Bool :=
  match f.status with
  | some s => !(s == "") && !(statusStrings.contains s)
  | none => false

/-- True when the dueDate filter branch of findAll throws: the value is
truthy and the JS date parser pd rejects it. -/
def dueDateInvalid (pd : String → Option Int) (f : FilterTasksDto) : Bool :=
  match f.dueDate with
  | some s => !(s == "") && (pd s).isNone
  | none => false

/-- Contiguous sublist test used to give ILIKE its substring meaning. -/
def occursWithin (p : List Char) : List Char → Bool
  | [] => p.isEmpty
  | c :: cs => p.isPrefixOf (c :: cs) || occursWithin p cs

/-- Case-insensitive substring containment: the meaning of the ILIKE
percent-needle-percent comparison built in findAll. -/
def containsCI (hay needle : String) : Bool :=
  occursWithin (needle.data.map Char.toLower) (hay.data.map Char.toLower)

/-- The status condition the query attaches when the status filter is
truthy: equality of the stored enum string. -/
def matchesStatus (f : FilterTasksDto) (t : Task) : Bool :=
  match f.status with
  | some s => if s = "" then true else TaskStatus.toStr t.status == s
  | none => true

/-- The dueDate condition the query attaches when the dueDate filter is
truthy and parses: the due time lies in the 24 hour half open window
from the parsed date. A day is 86400000 milliseconds; setDate plus one
on a UTC timestamp adds exactly that. A null dueDate never matches. -/
def matchesDue (pd : String → Option Int) (f : FilterTasksDto) (t : Task) : Bool :=
  match f.dueDate with
  | some s =>
    if s = "" then true
    else
      match pd s with
      | some d =>
        match t.dueDate with
        | some td => decide (d ≤ td) && decide (td < d + 86400000)
        | none => false
      | none => false
  | none => true

/-- The ILIKE search condition the query attaches when the trimmed
search is non empty: case insensitive substring of title or description,
where a null description never matches. -/
def matchesSearch (f : FilterTasksDto) (t : Task) : Bool :=
  match f.search with
  | some s =>
    if s = "" then true
    else if strTrim s = "" then true
    else containsCI t.title (strTrim s)
      || (match t.description with
          | some dsc => containsCI dsc (strTrim s)
          | none => false)
  | none => true

/-- The row predicate of the findAll query: userId equality ANDed with
the attached status, dueDate window and search conditions. -/
def taskMatches (pd : String → Option Int) (f : FilterTasksDto)
    (userId : String) (t : Task) : Bool :=
  (t.userId == userId) && matchesStatus f t && matchesDue pd f t && matchesSearch f t

/-- The half open one day window predicate named by the specification:
the task due time lies in the window starting at d. -/
def dueWindow (d : Int) (t : Task) : Bool :=
  match t.dueDate with
  | some td => decide (d ≤ td) && decide (td < d + 86400000)
  | none => false

/-- Insert a task into a list kept in descending createdAt order. -/
def insertByCreatedAtDesc (t : Task) : List Task → List Task
  | [] => [t]
  | u :: us =>
    if u.createdAt ≤ t.createdAt then t :: u :: us
    else u :: insertByCreatedAtDesc t us

/-- The ORDER BY createdAt DESC applied by findAll; ties between equal
timestamps are resolved by this fixed insertion order. -/
def sortByCreatedAtDesc (l : List Task) : List Task :=
  l.foldr insertByCreatedAtDesc []

/-- The record findAll resolves with. -/
structure FindAllResult where
  tasks : List Task
  total : Nat
  page : Int
  limit : Int
  totalPages : Nat
deriving DecidableEq

/-- TasksService.findAll: userId presence check, pagination bounds check,
status and dueDate validation, then the filtered query ordered descending
by createdAt with skip of page minus one times limit and take of limit;
getManyAndCount also returns the full match count, and totalPages is the
ceiling of total over limit. -/
def findAll (pd : String → Option Int) (f : FilterTasksDto) (userId : String)
    (db : List Task) : Except DomainError FindAllResult :=
  if userId = "" then
    .error (.badRequest "User ID is required")
  else
    let page := f.page.getD 1
    let limit := f.limit.getD 10
    if page < 1 ∨ limit < 1 ∨ limit > 100 then
      .error (.badRequest "Invalid pagination parameters")
    else if statusInvalid f then
      .error (.badRequest "Invalid task status")
    else if dueDateInvalid pd f then
      .error (.badRequest "Invalid due date format")
    else
      let matching := db.filter (taskMatches pd f userId)
      let total := matching.length
      .ok { tasks := ((sortByCreatedAtDesc matching).drop ((page - 1) * limit).toNat).take limit.toNat
            total := total
            page := page
            limit := limit
            totalPages := (total + limit.toNat - 1) / limit.toNat }

/-- Saving a task row: the row with the same primary key is replaced. -/
def saveTask (t : Task) (db : List Task) : List Task :=
  db.map (fun u => if u.id == t.id then t else u)

/-- UpdateTaskDto: all fields optional; status and priority are typed
enum members by the DTO declaration, dueDate is a raw date string. -/
structure UpdateTaskDto where
  title : Option String := none
  description : Option String := none
  status : Option TaskStatus := none
  priority : Option TaskPriority := none
  dueDate : Option String := none

/-- True when the dueDate check in update throws: a truthy dueDate the
date parser rejects. -/
def updateDueDateInvalid (pd : String → Option Int) (dto : UpdateTaskDto) : Bool :=
  match dto.dueDate with
  | some s => !(s == "") && (pd s).isNone
  | none => false

/-- The field application loop of update: each defined field of the DTO
overwrites the task field of the same name; dueDate is converted to a
date first, and a falsy dueDate string becomes undefined and is skipped.
No branch writes completedAt. -/
def applyUpdate (pd : String → Option Int) (dto : UpdateTaskDto) (t : Task) : Task :=
  { t with
    title := dto.title.getD t.title
    description := match dto.description with
      | some v => some v
      | none => t.description
    status := dto.status.getD t.status
    priority := dto.priority.getD t.priority
    dueDate := match dto.dueDate with
      | some s =>
        if s = "" then t.dueDate
        else
          match pd s with
          | some d => some d
          | none => t.dueDate
      | none => t.dueDate }

/-- TasksService.update: presence checks, ownership-scoped findOne with
NotFound on a miss, dueDate validation, field application, then save;
the UpdateDateColumn sets updatedAt at save. -/
def taskUpdate (pd : String → Option Int) (now : Int) (id userId : String)
    (dto : UpdateTaskDto) (db : List Task) : Except DomainError (Task × List Task) :=
  if id = "" ∨ userId = "" then
    .error (.badRequest "Task ID and user ID are required")
  else
    match db.find? (fun t => t.id == id && t.userId == userId) with
    | none => .error (.notFound "Task not found")
    | some task =>
      if updateDueDateInvalid pd dto then
        .error (.badRequest "Invalid due date format")
      else
        let updated := { applyUpdate pd dto task with updatedAt := now }
        .ok (updated, saveTask updated db)

/-- TasksService.markAsComplete: presence checks, ownership-scoped
findOne with NotFound on a miss, BadRequest if the task is already
completed, otherwise status becomes completed, completedAt becomes now,
and the row is saved. -/
def markAsComplete (now : Int) (id userId : String)
    (db : List Task) : Except DomainError (Task × List Task) :=
  if id = "" ∨ userId = "" then
    .error (.badRequest "Task ID and user ID are required")
  else
    match db.find? (fun t => t.id == id && t.userId == userId) with
    | none => .error (.notFound "Task not found")
    | some task =>
      if task.status = TaskStatus.completed then
        .error (.badRequest "Task is already completed")
      else
        let updated := { task with
          status := TaskStatus.completed
          completedAt := some now
          updatedAt := now }
        .ok (updated, saveTask updated db)

/-- The record getTaskStats resolves with. -/
structure TaskStats where
  total : Nat
  completed : Nat
  pending : Nat
  inProgress : Nat
  overdue : Nat
deriving DecidableEq

/-- The overdue predicate of getTaskStats: owned, status not completed,
and a dueDate strictly before now; a null dueDate never compares. -/
def isOverdue (now : Int) (userId : String) (t : Task) : Bool :=
  t.userId == userId && !(t.status == TaskStatus.completed)
    && (match t.dueDate with
        | some d => decide (d < now)
        | none => false)

/-- TasksService.getTaskStats: userId presence check, then five counts
over the owned rows: all, completed, pending, in progress, and overdue. -/
def getTaskStats (now : Int) (userId : String)
    (db : List Task) : Except DomainError TaskStats :=
  if userId = "" then
    .error (.badRequest "User ID is required")
  else
    .ok { total := (db.filter (fun t => t.userId == userId)).length
          completed := (db.filter (fun t =>
            t.userId == userId && t.status == TaskStatus.completed)).length
          pending := (db.filter (fun t =>
            t.userId == userId && t.status == TaskStatus.pending)).length
          inProgress := (db.filter (fun t =>
            t.userId == userId && t.status == TaskStatus.in_progress)).length
          overdue := (db.filter (isOverdue now userId)).length }

/-- The store visible after an operation: on success the saved store, on
a thrown exception the unchanged input store. -/
def storeAfterT (db : List Task) (r : Except DomainError (Task × List Task)) : List Task :=
  match r with
  | .ok p => p.2
  | .error _ => db

/-- The user store visible after a registration attempt. -/
def storeAfterU (db : List User) (r : Except DomainError (User × List User)) : List User :=
  match r with
  | .ok p => p.2
  | .error _ => db

/-- A concrete pending task owned by user u1, used as witness data. -/
def sampleTask : Task :=
  { id := "t1", title := "title", description := none, status := .pending
    priority := .medium, dueDate := none, completedAt := none
    userId := "u1", createdAt := 0, updatedAt := 0 }

/-- A concrete store for the statistics witness: three tasks of user u1
in the three statuses and one task of another user. -/
def statsDb : List Task :=
  [ { id := "a", title := "x", description := none, status := .pending
      priority := .low, dueDate := some 50, completedAt := none
      userId := "u1", createdAt := 1, updatedAt := 1 }
  , { id := "b", title := "y", description := none, status := .in_progress
      priority := .low, dueDate := some 200, completedAt := none
      userId := "u1", createdAt := 2, updatedAt := 2 }
  , { id := "c", title := "z", description := none, status := .completed
      priority := .low, dueDate := some 10, completedAt := some 20
      userId := "u1", createdAt := 3, updatedAt := 3 }
  , { id := "d", title := "w", description := none, status := .pending
      priority := .low, dueDate := some 5, completedAt := none
      userId := "u2", createdAt := 4, updatedAt := 4 } ]

/-- A concrete task generator for the pagination witness. -/
def pageTask (i : Nat) : Task :=
  { id := "x", title := "t", description := none, status := .pending
    priority := .medium, dueDate := none, completedAt := none
    userId := "owner", createdAt := (i : Int), updatedAt := 0 }

/-- Twenty five tasks of one owner with distinct creation times. -/
def pageDb : List Task := (List.range 25).map pageTask

/-- A concrete active account used by the login witnesses. -/
def authUserActive : User :=
  { id := "u1", email := "known@example.com", firstName := "f", lastName := "l"
    password := "hashA", isActive := true, createdAt := 0, updatedAt := 0 }

/-- A concrete inactive account used by the login witnesses. -/
def authUserInactive : User :=
  { id := "u2", email := "inactive@example.com", firstName := "f", lastName := "l"
    password := "hashB", isActive := false, createdAt := 0, updatedAt := 0 }

/-- The concrete account store of the login witnesses. -/
def authDb : List User := [authUserActive, authUserInactive]

/-- Helper: a string accepted by the email format test is not empty. -/
theorem emailRegexTest_ne_empty {s : String} (h : emailRegexTest s = true) : s ≠ "" := by
  intro he
  subst he
  exact absurd h (by decide)

/-- Helper: searching an appended list when the front part has no hit. -/
theorem find?_none_append {α : Type} {p : α → Bool} {l1 : List α}
    (h : l1.find? p = none) (l2 : List α) : (l1 ++ l2).find? p = l2.find? p := by
  rw [List.find?_append, h, Option.none_or]

/-- Helper: the per status counts sum to at most the owned count. -/
theorem statusCounts_le_ownedCount (userId : String) (db : List Task) :
    (db.filter (fun t => t.userId == userId && t.status == TaskStatus.pending)).length
      + (db.filter (fun t => t.userId == userId && t.status == TaskStatus.in_progress)).length
      + (db.filter (fun t => t.userId == userId && t.status == TaskStatus.completed)).length
      ≤ (db.filter (fun t => t.userId == userId)).length := by
  induction db with
  | nil => simp
  | cons t ts ih =>
    simp only [List.filter_cons]
    cases ho : (t.userId == userId) <;> cases hs : t.status <;>
      simp [ho, hs] <;> omega

/-- Helper: an overdue task is owned and not completed. -/
theorem isOverdue_parts {now : Int} {userId : String} {t : Task}
    (h : isOverdue now userId t = true) :
    (t.userId == userId) = true ∧ (t.status == TaskStatus.completed) = false := by
  unfold isOverdue at h
  simp only [Bool.and_eq_true] at h
  refine ⟨h.1.1, ?_⟩
  simpa using h.1.2

/-- Helper: the overdue count plus the completed count is at most the
owned count, since an overdue task is never completed. -/
theorem overdue_add_completed_le_ownedCount (now : Int) (userId : String) (db : List Task) :
    (db.filter (isOverdue now userId)).length
      + (db.filter (fun t => t.userId == userId && t.status == TaskStatus.completed)).length
      ≤ (db.filter (fun t => t.userId == userId)).length := by
  induction db with
  | nil => simp
  | cons t ts ih =>
    simp only [List.filter_cons]
    by_cases hov : isOverdue now userId t = true
    · obtain ⟨how, hnc⟩ := isOverdue_parts hov
      simp [hov, how, hnc]
      omega
    · by_cases how : (t.userId == userId) = true
      · by_cases hc : (t.status == TaskStatus.completed) = true
        · simp [hov, how, hc]
          omega
        · simp [hov, how, hc]
          omega
      · simp [hov, how]
        omega

/-- Helper: the update application never writes completedAt. -/
theorem applyUpdate_completedAt (pd : String → Option Int) (dto : UpdateTaskDto) (t : Task) :
    (applyUpdate pd dto t).completedAt = t.completedAt := rfl

/-- Helper: membership after descending insertion. -/
theorem mem_insertByCreatedAtDesc {x t : Task} {l : List Task}
    (h : x ∈ insertByCreatedAtDesc t l) : x = t ∨ x ∈ l := by
  induction l with
  | nil =>
    simp [insertByCreatedAtDesc] at h
    exact Or.inl h
  | cons u us ih =>
    unfold insertByCreatedAtDesc at h
    by_cases hc : u.createdAt ≤ t.createdAt
    · rw [if_pos hc] at h
      rcases List.mem_cons.mp h with h1 | h2
      · exact Or.inl h1
      · exact Or.inr h2
    · rw [if_neg hc] at h
      rcases List.mem_cons.mp h with h1 | h2
      · exact Or.inr (List.mem_cons.mpr (Or.inl h1))
      · rcases ih h2 with h3 | h4
        · exact Or.inl h3
        · exact Or.inr (List.mem_cons.mpr (Or.inr h4))

/-- Helper: the descending sort reorders without inventing rows. -/
theorem mem_sortByCreatedAtDesc {x : Task} {l : List Task}
    (h : x ∈ sortByCreatedAtDesc l) : x ∈ l := by
  induction l with
  | nil => exact h
  | cons u us ih =>
    have h2 : x ∈ insertByCreatedAtDesc u (sortByCreatedAtDesc us) := h
    rcases mem_insertByCreatedAtDesc h2 with h3 | h4
    · exact List.mem_cons.mpr (Or.inl h3)
    · exact List.mem_cons.mpr (Or.inr (ih h4))

/-- Helper: the rounded up quotient is the least page count covering
all matches: T fits under it and it never overshoots by a full page. -/
theorem ceil_mul_bounds (T L : Nat) (hL : 0 < L) :
    T ≤ ((T + L - 1) / L) * L ∧ ((T + L - 1) / L) * L < T + L := by
  have hdm := Nat.div_add_mod (T + L - 1) L
  have hmod := Nat.mod_lt (T + L - 1) hL
  have hu : ((T + L - 1) / L) * L ≤ T + L - 1 := Nat.div_mul_le_self _ _
  have hd : T + L - 1 < ((T + L - 1) / L) * L + L := by
    conv_lhs => rw [← hdm]
    rw [Nat.mul_comm]
    exact Nat.add_lt_add_left hmod _
  generalize ((T + L - 1) / L) * L = A at hu hd ⊢
  omega

/-- C5: markComplete raises NotFound when no task with that id is owned
by that owner, raises BadRequest on an already completed task while the
store stays unchanged, and otherwise persists the task with status
completed and completedAt set to the current time. -/
theorem markAsComplete_spec (now : Int) (id userId : String) (db : List Task)
    (hid : id ≠ "") (huid : userId ≠ "") :
    (db.find? (fun x => x.id == id && x.userId == userId) = none →
       markAsComplete now id userId db = .error (.notFound "Task not found"))
    ∧ (∀ t, db.find? (fun x => x.id == id && x.userId == userId) = some t →
        t.status = TaskStatus.completed →
          markAsComplete now id userId db = .error (.badRequest "Task is already completed")
          ∧ storeAfterT db (markAsComplete now id userId db) = db)
    ∧ (∀ t, db.find? (fun x => x.id == id && x.userId == userId) = some t →
        t.status ≠ TaskStatus.completed →
          markAsComplete now id userId db =
            .ok ({ t with status := TaskStatus.completed, completedAt := some now, updatedAt := now },
              saveTask { t with status := TaskStatus.completed, completedAt := some now, updatedAt := now } db)) := by
  refine ⟨fun h => ?_, fun t hf hs => ?_, fun t hf hs => ?_⟩
  · simp [markAsComplete, hid, huid, h]
  · constructor
    · simp [markAsComplete, hid, huid, hf, hs]
    · simp [storeAfterT, markAsComplete, hid, huid, hf, hs]
  · simp [markAsComplete, hid, huid, hf, hs]

/-- Witness for C5: completing the sample pending task persists status
completed with completedAt 9. -/
theorem markAsComplete_spec_witness :
    markAsComplete 9 "t1" "u1" [sampleTask] =
      .ok ({ sampleTask with status := TaskStatus.completed, completedAt := some 9, updatedAt := 9 },
        saveTask { sampleTask with status := TaskStatus.completed, completedAt := some 9, updatedAt := 9 }
          [sampleTask]) := by
  exact (markAsComplete_spec 9 "t1" "u1" [sampleTask] (by decide) (by decide)).2.2
    sampleTask (by decide) (by decide)

/-- C7: getStats returns the owned count, the three per status counts
and the overdue count, and the returned record satisfies the two count
inequalities stated by the claim. -/
theorem getTaskStats_spec (now : Int) (userId : String) (db : List Task)
    (h : userId ≠ "") :
    ∃ st, getTaskStats now userId db = .ok st
      ∧ st.total = (db.filter (fun t => t.userId == userId)).length
      ∧ st.completed = (db.filter (fun t => t.userId == userId && t.status == TaskStatus.completed)).length
      ∧ st.pending = (db.filter (fun t => t.userId == userId && t.status == TaskStatus.pending)).length
      ∧ st.inProgress = (db.filter (fun t => t.userId == userId && t.status == TaskStatus.in_progress)).length
      ∧ st.overdue = (db.filter (isOverdue now userId)).length
      ∧ st.pending + st.inProgress + st.completed ≤ st.total
      ∧ st.overdue ≤ st.total - st.completed := by
  refine ⟨{ total := (db.filter (fun t => t.userId == userId)).length
            completed := (db.filter (fun t => t.userId == userId && t.status == TaskStatus.completed)).length
            pending := (db.filter (fun t => t.userId == userId && t.status == TaskStatus.pending)).length
            inProgress := (db.filter (fun t => t.userId == userId && t.status == TaskStatus.in_progress)).length
            overdue := (db.filter (isOverdue now userId)).length },
    ?_, rfl, rfl, rfl, rfl, rfl, ?_, ?_⟩
  · simp [getTaskStats, h]
  · exact statusCounts_le_ownedCount userId db
  · have h2 := overdue_add_completed_le_ownedCount now userId db
    show (db.filter (isOverdue now userId)).length ≤
      (db.filter (fun t => t.userId == userId)).length
        - (db.filter (fun t => t.userId == userId && t.status == TaskStatus.completed)).length
    omega

/-- Witness for C7 at a concrete store of four tasks. -/
theorem getTaskStats_spec_witness :
    (∃ st, getTaskStats 100 "u1" statsDb = .ok st
       ∧ st.pending + st.inProgress + st.completed ≤ st.total
       ∧ st.overdue ≤ st.total - st.completed)
    ∧ getTaskStats 100 "u1" statsDb =
        .ok { total := 3, completed := 1, pending := 1, inProgress := 1, overdue := 1 } := by
  constructor
  · obtain ⟨st, hok, _, _, _, _, _, hle1, hle2⟩ := getTaskStats_spec 100 "u1" statsDb (by decide)
    exact ⟨st, hok, hle1, hle2⟩
  · rfl

/-- C9 counterexample: with a well formed hash (the malformed predicate
rejects nothing here) and a comparison that merely mismatches, an empty
plaintext makes validatePassword raise BadRequest, a failure that is not
InternalError and does not come from a malformed hash. -/
theorem validatePassword_claim_counterexample :
    validatePassword (fun _ => false) (fun _ _ => false) "" "storedhash" =
      .error (.badRequest "Both passwords are required for validation") := by
  rfl

/-- C9 amended: for a non empty plaintext and a non empty stored hash,
validatePassword returns the comparison verdict and never raises on a
mismatch, and its only failure is InternalError on a malformed hash;
empty inputs are rejected earlier with BadRequest. -/
theorem validatePassword_spec (malformed : String → Bool) (bcompare : String → String → Bool)
    (plain hash : String) (hp : plain ≠ "") (hh : hash ≠ "") :
    (malformed hash = false →
       validatePassword malformed bcompare plain hash = .ok (bcompare plain hash))
    ∧ (malformed hash = true →
       validatePassword malformed bcompare plain hash =
         .error (.internalError "Invalid password hash format")) := by
  constructor <;> intro hm <;> simp [validatePassword, hp, hh, hm]

/-- Witness for C9 amended: a mismatching pair yields ok false. -/
theorem validatePassword_spec_witness :
    validatePassword (fun _ => false) (fun _ _ => false) "secret" "storedhash9" = .ok false := by
  exact (validatePassword_spec (fun _ => false) (fun _ _ => false) "secret" "storedhash9"
    (by decide) (by decide)).1 rfl

/-- C2 counterexample: updating the sample pending task with status
completed succeeds with status completed while completedAt stays null,
so an update into completed does not set completedAt. -/
theorem update_claim_counterexample :
    (taskUpdate (fun _ => none) 5 "t1" "u1" { status := some TaskStatus.completed }
        [sampleTask]).toOption.map (fun r => (r.1.status, r.1.completedAt))
      = some (TaskStatus.completed, none) := by
  decide

/-- C2 amended: completedAt is written only by markComplete, which sets
it to the current time exactly when the task moves from a non completed
status into completed; update never writes completedAt, even when it
changes the status to completed. -/
theorem completedAt_written_only_by_markAsComplete :
    (∀ (pd : String → Option Int) (now : Int) (id userId : String) (dto : UpdateTaskDto)
        (db : List Task) (t2 : Task) (db2 : List Task),
       taskUpdate pd now id userId dto db = .ok (t2, db2) →
         ∃ t, db.find? (fun x => x.id == id && x.userId == userId) = some t
           ∧ t2.completedAt = t.completedAt)
    ∧ (∀ (now : Int) (id userId : String) (db : List Task) (t2 : Task) (db2 : List Task),
       markAsComplete now id userId db = .ok (t2, db2) →
         ∃ t, db.find? (fun x => x.id == id && x.userId == userId) = some t
           ∧ t.status ≠ TaskStatus.completed
           ∧ t2.status = TaskStatus.completed ∧ t2.completedAt = some now) := by
  constructor
  · intro pd now id userId dto db t2 db2 h
    by_cases hids : id = "" ∨ userId = ""
    · simp [taskUpdate, hids] at h
    · cases hf : db.find? (fun x => x.id == id && x.userId == userId) with
      | none => simp [taskUpdate, hids, hf] at h
      | some t =>
        cases hv : updateDueDateInvalid pd dto with
        | true => simp [taskUpdate, hids, hf, hv] at h
        | false =>
          simp [taskUpdate, hids, hf, hv] at h
          refine ⟨t, rfl, ?_⟩
          rw [← h.1]
          exact applyUpdate_completedAt pd dto t
  · intro now id userId db t2 db2 h
    by_cases hids : id = "" ∨ userId = ""
    · simp [markAsComplete, hids] at h
    · cases hf : db.find? (fun x => x.id == id && x.userId == userId) with
      | none => simp [markAsComplete, hids, hf] at h
      | some t =>
        by_cases hs : t.status = TaskStatus.completed
        · simp [markAsComplete, hids, hf, hs] at h
        · simp [markAsComplete, hids, hf, hs] at h
          exact ⟨t, rfl, hs, by rw [← h.1], by rw [← h.1]⟩

/-- Witness for C2 amended: the update branch at the concrete update of
the counterexample and the markComplete branch at a concrete call. -/
theorem completedAt_written_only_by_markAsComplete_witness :
    (∃ t, [sampleTask].find? (fun x => x.id == "t1" && x.userId == "u1") = some t
       ∧ ({ applyUpdate (fun _ => none) { status := some TaskStatus.completed } sampleTask
             with updatedAt := 5 } : Task).completedAt = t.completedAt)
    ∧ (∃ t, [sampleTask].find? (fun x => x.id == "t1" && x.userId == "u1") = some t
       ∧ t.status ≠ TaskStatus.completed
       ∧ ({ sampleTask with status := TaskStatus.completed, completedAt := some 7, updatedAt := 7 } : Task).status = TaskStatus.completed
       ∧ ({ sampleTask with status := TaskStatus.completed, completedAt := some 7, updatedAt := 7 } : Task).completedAt = some 7) := by
  constructor
  · exact completedAt_written_only_by_markAsComplete.1 (fun _ => none) 5 "t1" "u1"
      { status := some TaskStatus.completed } [sampleTask]
      { applyUpdate (fun _ => none) { status := some TaskStatus.completed } sampleTask
        with updatedAt := 5 }
      (saveTask { applyUpdate (fun _ => none) { status := some TaskStatus.completed } sampleTask
        with updatedAt := 5 } [sampleTask]) (by rfl)
  · exact completedAt_written_only_by_markAsComplete.2 7 "t1" "u1" [sampleTask]
      { sampleTask with status := TaskStatus.completed, completedAt := some 7, updatedAt := 7 }
      (saveTask { sampleTask with status := TaskStatus.completed, completedAt := some 7, updatedAt := 7 }
        [sampleTask]) (by rfl)

/-- Helper: a password passing the minimum length check is not empty. -/
theorem password_ne_empty {p : String} (h : 6 ≤ p.length) : p ≠ "" := by
  intro he
  subst he
  simp at h

/-- C6: with no matching account stored, the first registration stores
the normalized email, and a second registration whose email normalizes
to the same string fails with Conflict while the store is unchanged. -/
theorem usersCreate_duplicate_conflict (bhash : String → String)
    (id1 id2 : String) (now1 now2 : Int) (d1 d2 : RegisterData) (db : List User)
    (h1e : emailRegexTest d1.email = true) (h1p : 6 ≤ d1.password.length)
    (h2e : emailRegexTest d2.email = true) (h2p : 6 ≤ d2.password.length)
    (heq : normalizeEmail d1.email = normalizeEmail d2.email)
    (hfree : db.find? (fun u => u.email == normalizeEmail d1.email) = none) :
    ∃ u1, usersCreate bhash id1 now1 d1 db = .ok (u1, db ++ [u1])
      ∧ u1.email = normalizeEmail d1.email
      ∧ usersCreate bhash id2 now2 d2 (db ++ [u1]) = .error (.conflict "Email already exists")
      ∧ storeAfterU (db ++ [u1]) (usersCreate bhash id2 now2 d2 (db ++ [u1])) = db ++ [u1] := by
  have he1 : d1.email ≠ "" := emailRegexTest_ne_empty h1e
  have hp1 : d1.password ≠ "" := password_ne_empty h1p
  have he2 : d2.email ≠ "" := emailRegexTest_ne_empty h2e
  have hp2 : d2.password ≠ "" := password_ne_empty h2p
  have hlen1 : ¬ d1.password.length < 6 := by omega
  have hlen2 : ¬ d2.password.length < 6 := by omega
  have hok0 : usersCreate bhash id1 now1 d1 db
      = .ok (mkUser id1 now1 bhash d1, db ++ [mkUser id1 now1 bhash d1]) := by
    simp [usersCreate, he1, hp1, h1e, hlen1, hfree]
  obtain ⟨u1, hok, hu1email⟩ : ∃ u1, usersCreate bhash id1 now1 d1 db = .ok (u1, db ++ [u1])
      ∧ u1.email = normalizeEmail d1.email := by
    refine ⟨_, hok0, ?_⟩
    rfl
  have hfind2 : (db ++ [u1]).find? (fun u => u.email == normalizeEmail d2.email) = some u1 := by
    rw [← heq, find?_none_append hfree]
    simp [List.find?, hu1email]
  have hconf : usersCreate bhash id2 now2 d2 (db ++ [u1])
      = .error (.conflict "Email already exists") := by
    simp [usersCreate, he2, hp2, h2e, hlen2, hfind2]
  refine ⟨u1, hok, hu1email, hconf, ?_⟩
  rw [hconf]
  rfl

/-- Witness for C6: registering the same email twice up to case yields
Conflict on the second attempt. -/
theorem usersCreate_duplicate_conflict_witness :
    ∃ u1, usersCreate (fun p => "h" ++ p) "id1" 1
        { email := "User@Example.com", password := "secret1" } [] = .ok (u1, [] ++ [u1])
      ∧ u1.email = normalizeEmail "User@Example.com"
      ∧ usersCreate (fun p => "h" ++ p) "id2" 2
          { email := "user@example.com", password := "secret2" } ([] ++ [u1])
          = .error (.conflict "Email already exists")
      ∧ storeAfterU ([] ++ [u1]) (usersCreate (fun p => "h" ++ p) "id2" 2
          { email := "user@example.com", password := "secret2" } ([] ++ [u1])) = [] ++ [u1] := by
  exact usersCreate_duplicate_conflict (fun p => "h" ++ p) "id1" "id2" 1 2
    { email := "User@Example.com", password := "secret1" }
    { email := "user@example.com", password := "secret2" } []
    (by decide) (by decide) (by decide) (by decide) (by decide) (by rfl)

/-- C1: with well formed emails, login fails Unauthorized when the
normalized email matches no account, when the matched account is
inactive, and when the hash comparison fails; the unknown email failure
and the wrong password failure are the same error with the same message,
so the two runs are indistinguishable to the caller. -/
theorem login_unauthorized_indistinguishable
    (malformed : String → Bool) (bcompare : String → String → Bool)
    (sign : String → String → String) (db : List User) (e1 e2 e3 p : String)
    (hp : p ≠ "")
    (h1f : emailRegexTest e1 = true)
    (h1 : db.find? (fun u => u.email == normalizeEmail e1) = none)
    (h2f : emailRegexTest e2 = true) (u2 : User)
    (h2 : db.find? (fun u => u.email == normalizeEmail e2) = some u2)
    (h2a : u2.isActive = true)
    (h2h : u2.password ≠ "") (h2m : malformed u2.password = false)
    (h2c : bcompare p u2.password = false)
    (h3f : emailRegexTest e3 = true) (u3 : User)
    (h3 : db.find? (fun u => u.email == normalizeEmail e3) = some u3)
    (h3a : u3.isActive = false) :
    login malformed bcompare sign db e1 p = .error (.unauthorized "Invalid credentials")
    ∧ login malformed bcompare sign db e2 p = .error (.unauthorized "Invalid credentials")
    ∧ login malformed bcompare sign db e3 p = .error (.unauthorized "Account is deactivated")
    ∧ login malformed bcompare sign db e1 p = login malformed bcompare sign db e2 p := by
  have he1 := emailRegexTest_ne_empty h1f
  have he2 := emailRegexTest_ne_empty h2f
  have he3 := emailRegexTest_ne_empty h3f
  have g1 : login malformed bcompare sign db e1 p
      = .error (.unauthorized "Invalid credentials") := by
    simp [login, findByEmail, he1, hp, h1f, h1]
  have g2 : login malformed bcompare sign db e2 p
      = .error (.unauthorized "Invalid credentials") := by
    simp [login, findByEmail, validatePassword, he2, hp, h2f, h2, h2a, h2h, h2m, h2c]
  have g3 : login malformed bcompare sign db e3 p
      = .error (.unauthorized "Account is deactivated") := by
    simp [login, findByEmail, he3, hp, h3f, h3, h3a]
  exact ⟨g1, g2, g3, g1.trans g2.symm⟩

/-- Witness for C1 on a concrete store: unknown email, wrong password
and inactive account all yield Unauthorized, the first two with the same
message. -/
theorem login_unauthorized_indistinguishable_witness :
    login (fun _ => false) (fun _ _ => false) (fun _ _ => "tok") authDb "ghost@example.com" "pw"
      = .error (.unauthorized "Invalid credentials")
    ∧ login (fun _ => false) (fun _ _ => false) (fun _ _ => "tok") authDb "known@example.com" "pw"
      = .error (.unauthorized "Invalid credentials")
    ∧ login (fun _ => false) (fun _ _ => false) (fun _ _ => "tok") authDb "inactive@example.com" "pw"
      = .error (.unauthorized "Account is deactivated") := by
  have h := login_unauthorized_indistinguishable (fun _ => false) (fun _ _ => false)
    (fun _ _ => "tok") authDb "ghost@example.com" "known@example.com" "inactive@example.com" "pw"
    (by decide) (by decide) (by decide) (by decide) authUserActive (by decide) (by decide)
    (by decide) rfl rfl (by decide) authUserInactive (by decide) (by decide)
  exact ⟨h.1, h.2.1, h.2.2.1⟩

/-- C10: a syntactically invalid email makes login fail BadRequest via
the format check inside findByEmail, independent of the store, while a
well formed unknown email fails Unauthorized; the two failures differ,
so the caller can tell the cases apart by failure kind. -/
theorem login_invalid_email_badRequest
    (malformed : String → Bool) (bcompare : String → String → Bool)
    (sign : String → String → String) (db : List User) (e1 e2 p : String)
    (hp : p ≠ "") (h1ne : e1 ≠ "") (h1f : emailRegexTest e1 = false)
    (h2f : emailRegexTest e2 = true)
    (h2 : db.find? (fun u => u.email == normalizeEmail e2) = none) :
    login malformed bcompare sign db e1 p = .error (.badRequest "Invalid email format")
    ∧ (∀ db2 : List User, login malformed bcompare sign db2 e1 p
        = .error (.badRequest "Invalid email format"))
    ∧ login malformed bcompare sign db e2 p = .error (.unauthorized "Invalid credentials")
    ∧ login malformed bcompare sign db e1 p ≠ login malformed bcompare sign db e2 p := by
  have he2 := emailRegexTest_ne_empty h2f
  have g1 : ∀ db2 : List User, login malformed bcompare sign db2 e1 p
      = .error (.badRequest "Invalid email format") := by
    intro db2
    simp [login, findByEmail, h1ne, hp, h1f]
  have g2 : login malformed bcompare sign db e2 p
      = .error (.unauthorized "Invalid credentials") := by
    simp [login, findByEmail, he2, hp, h2f, h2]
  refine ⟨g1 db, g1, g2, ?_⟩
  rw [g1 db, g2]
  simp

/-- Witness for C10: a malformed email fails BadRequest while a well
formed unknown one fails Unauthorized on the same concrete store. -/
theorem login_invalid_email_badRequest_witness :
    login (fun _ => false) (fun _ _ => false) (fun _ _ => "tok") authDb "not-an-email" "pw"
      = .error (.badRequest "Invalid email format")
    ∧ login (fun _ => false) (fun _ _ => false) (fun _ _ => "tok") authDb "ghost2@example.com" "pw"
      = .error (.unauthorized "Invalid credentials") := by
  have h := login_invalid_email_badRequest (fun _ => false) (fun _ _ => false)
    (fun _ _ => "tok") authDb "not-an-email" "ghost2@example.com" "pw"
    (by decide) (by decide) (by decide) (by decide) (by decide)
  exact ⟨h.1, h.2.2.1⟩

/-- Helper: with every validation passing, findAll resolves with the
paged slice of the ordered matches and the rounded up page count. -/
theorem findAll_ok (pd : String → Option Int) (f : FilterTasksDto) (userId : String)
    (db : List Task) (huid : userId ≠ "")
    (hpage : 1 ≤ f.page.getD 1) (hlim1 : 1 ≤ f.limit.getD 10) (hlim2 : f.limit.getD 10 ≤ 100)
    (hst : statusInvalid f = false) (hdd : dueDateInvalid pd f = false) :
    findAll pd f userId db = .ok
      { tasks := ((sortByCreatedAtDesc (db.filter (taskMatches pd f userId))).drop
            ((f.page.getD 1 - 1) * f.limit.getD 10).toNat).take (f.limit.getD 10).toNat
        total := (db.filter (taskMatches pd f userId)).length
        page := f.page.getD 1
        limit := f.limit.getD 10
        totalPages := ((db.filter (taskMatches pd f userId)).length
          + (f.limit.getD 10).toNat - 1) / (f.limit.getD 10).toNat } := by
  have hno : ¬ (f.page.getD 1 < 1 ∨ f.limit.getD 10 < 1 ∨ f.limit.getD 10 > 100) := by omega
  simp [findAll, huid, hno, hst, hdd]

/-- C3: with a valid owner, page and limit and passing filters, findAll
skips exactly page minus one times limit rows of the descending ordered
match list, returns at most limit rows, reports total as the full match
count, and totalPages is the ceiling of total over limit, pinned by the
two product bounds. -/
theorem findAll_pagination_spec (pd : String → Option Int) (f : FilterTasksDto)
    (userId : String) (db : List Task) (huid : userId ≠ "")
    (hpage : 1 ≤ f.page.getD 1) (hlim1 : 1 ≤ f.limit.getD 10) (hlim2 : f.limit.getD 10 ≤ 100)
    (hst : statusInvalid f = false) (hdd : dueDateInvalid pd f = false) :
    ∃ r, findAll pd f userId db = .ok r
      ∧ r.tasks = ((sortByCreatedAtDesc (db.filter (taskMatches pd f userId))).drop
            ((f.page.getD 1 - 1) * f.limit.getD 10).toNat).take (f.limit.getD 10).toNat
      ∧ r.tasks.length ≤ (f.limit.getD 10).toNat
      ∧ r.total = (db.filter (taskMatches pd f userId)).length
      ∧ r.page = f.page.getD 1
      ∧ r.limit = f.limit.getD 10
      ∧ r.total ≤ r.totalPages * (f.limit.getD 10).toNat
      ∧ r.totalPages * (f.limit.getD 10).toNat < r.total + (f.limit.getD 10).toNat := by
  have h := ceil_mul_bounds (db.filter (taskMatches pd f userId)).length
    (f.limit.getD 10).toNat (by omega)
  exact ⟨_, findAll_ok pd f userId db huid hpage hlim1 hlim2 hst hdd,
    rfl, List.length_take_le _ _, rfl, rfl, rfl, h.1, h.2⟩

/-- Witness for C3: page 2 with limit 10 over 25 owned tasks returns the
rows with creation times 14 down to 5, total 25 and totalPages 3. -/
theorem findAll_pagination_spec_witness :
    ∃ r, findAll (fun _ => none) { page := some 2, limit := some 10 } "owner" pageDb = .ok r
      ∧ r.tasks.length ≤ (10 : Int).toNat
      ∧ r.total ≤ r.totalPages * (10 : Int).toNat
      ∧ (findAll (fun _ => none) { page := some 2, limit := some 10 } "owner" pageDb).toOption.map
          (fun q => (q.tasks.map (fun t => t.createdAt), q.total, q.totalPages))
        = some ([14, 13, 12, 11, 10, 9, 8, 7, 6, 5], 25, 3) := by
  obtain ⟨r, hok, htk, hlen, htot, hpg, hlim, hc1, hc2⟩ :=
    findAll_pagination_spec (fun _ => none) { page := some 2, limit := some 10 } "owner" pageDb
      (by decide) (by decide) (by decide) (by decide) (by rfl) (by rfl)
  exact ⟨r, hok, hlen, hc1, by decide⟩

/-- Helper: under a truthy parsable dueDate filter the row predicate
factors into the same predicate without the dueDate filter ANDed with
the one day window at the parsed date. -/
theorem taskMatches_dueDate_split (pd : String → Option Int) (f : FilterTasksDto)
    (userId : String) (s : String) (d : Int) (hs : f.dueDate = some s)
    (hsne : s ≠ "") (hpd : pd s = some d) (t : Task) :
    taskMatches pd f userId t
      = (taskMatches pd { f with dueDate := none } userId t && dueWindow d t) := by
  have hww : matchesDue pd f t = dueWindow d t := by
    simp [matchesDue, dueWindow, hs, hsne, hpd]
  show ((t.userId == userId) && matchesStatus f t && matchesDue pd f t && matchesSearch f t)
      = ((t.userId == userId) && matchesStatus { f with dueDate := none } t
          && matchesDue pd { f with dueDate := none } t
          && matchesSearch { f with dueDate := none } t && dueWindow d t)
  have h1 : matchesStatus { f with dueDate := none } t = matchesStatus f t := rfl
  have h2 : matchesSearch { f with dueDate := none } t = matchesSearch f t := rfl
  have h3 : matchesDue pd { f with dueDate := none } t = true := rfl
  rw [hww, h1, h2, h3, Bool.and_true]
  cases dueWindow d t <;> cases matchesSearch f t <;> simp

/-- C4: under a truthy parsable dueDate filter, every returned row has a
due time inside the one day half open window from the parsed date, and
the reported total counts exactly the owned rows that satisfy the other
filters and the window. -/
theorem findAll_dueDate_window (pd : String → Option Int) (f : FilterTasksDto)
    (userId : String) (db : List Task) (s : String) (d : Int) (huid : userId ≠ "")
    (hpage : 1 ≤ f.page.getD 1) (hlim1 : 1 ≤ f.limit.getD 10) (hlim2 : f.limit.getD 10 ≤ 100)
    (hst : statusInvalid f = false)
    (hs : f.dueDate = some s) (hsne : s ≠ "") (hpd : pd s = some d) :
    ∃ r, findAll pd f userId db = .ok r
      ∧ (∀ t ∈ r.tasks, ∃ td, t.dueDate = some td ∧ d ≤ td ∧ td < d + 86400000)
      ∧ r.total = (db.filter (fun t =>
          taskMatches pd { f with dueDate := none } userId t && dueWindow d t)).length := by
  have hdd : dueDateInvalid pd f = false := by
    simp [dueDateInvalid, hs, hsne, hpd]
  have hok := findAll_ok pd f userId db huid hpage hlim1 hlim2 hst hdd
  have hwin : ∀ t, t ∈ ((sortByCreatedAtDesc (db.filter (taskMatches pd f userId))).drop
      ((f.page.getD 1 - 1) * f.limit.getD 10).toNat).take (f.limit.getD 10).toNat →
      dueWindow d t = true := by
    intro t ht
    have h1 : t ∈ db.filter (taskMatches pd f userId) :=
      mem_sortByCreatedAtDesc (List.mem_of_mem_drop (List.mem_of_mem_take ht))
    have h2 := (List.mem_filter.mp h1).2
    rw [taskMatches_dueDate_split pd f userId s d hs hsne hpd t] at h2
    simp only [Bool.and_eq_true] at h2
    exact h2.2
  refine ⟨_, hok, fun t ht => ?_, ?_⟩
  · have hw := hwin t ht
    unfold dueWindow at hw
    cases hdue : t.dueDate with
    | none => rw [hdue] at hw; simp at hw
    | some td =>
      rw [hdue] at hw
      simp only [Bool.and_eq_true, decide_eq_true_eq] at hw
      exact ⟨td, rfl, hw.1, hw.2⟩
  · show (db.filter (taskMatches pd f userId)).length = _
    rw [List.filter_congr
      (fun t _ => taskMatches_dueDate_split pd f userId s d hs hsne hpd t)]

/-- A concrete date parser for the dueDate witness: the last day of 2024
parses to its UTC midnight in epoch milliseconds. -/
def pdDec31 (s : String) : Option Int :=
  if s = "2024-12-31" then some 1735603200000 else none

/-- A concrete store for the dueDate witness: two rows due inside the
day window of 2024-12-31 and two rows outside it. -/
def dueDb : List Task :=
  [ { id := "a", title := "x", description := none, status := .pending
      priority := .low, dueDate := some 1735603200000, completedAt := none
      userId := "u1", createdAt := 1, updatedAt := 1 }
  , { id := "b", title := "y", description := none, status := .pending
      priority := .low, dueDate := some 1735689599999, completedAt := none
      userId := "u1", createdAt := 2, updatedAt := 2 }
  , { id := "c", title := "z", description := none, status := .pending
      priority := .low, dueDate := some 1735689600000, completedAt := none
      userId := "u1", createdAt := 3, updatedAt := 3 }
  , { id := "d", title := "w", description := none, status := .pending
      priority := .low, dueDate := none, completedAt := none
      userId := "u1", createdAt := 4, updatedAt := 4 } ]

/-- Witness for C4: filtering dueDb by 2024-12-31 keeps exactly the two
rows due inside the UTC day window. -/
theorem findAll_dueDate_window_witness :
    (∃ r, findAll pdDec31 { dueDate := some "2024-12-31" } "u1" dueDb = .ok r
       ∧ (∀ t ∈ r.tasks, ∃ td, t.dueDate = some td
            ∧ 1735603200000 ≤ td ∧ td < 1735603200000 + 86400000))
    ∧ (findAll pdDec31 { dueDate := some "2024-12-31" } "u1" dueDb).toOption.map
        (fun q => (q.tasks.map (fun t => t.id), q.total)) = some (["b", "a"], 2) := by
  constructor
  · obtain ⟨r, hok, hw, _⟩ := findAll_dueDate_window pdDec31
      { dueDate := some "2024-12-31" } "u1" dueDb "2024-12-31" 1735603200000
      (by decide) (by decide) (by decide) (by decide) (by rfl) rfl (by decide) (by rfl)
    exact ⟨r, hok, hw⟩
  · decide

/-- Helper: a search string that trims to empty leaves the row predicate
of findAll identical to the one with no search filter. -/
theorem taskMatches_search_trim (pd : String → Option Int) (f : FilterTasksDto)
    (userId : String) (s : String) (hs : f.search = some s) (htrim : strTrim s = "")
    (t : Task) :
    taskMatches pd f userId t = taskMatches pd { f with search := none } userId t := by
  have h1 : matchesSearch f t = true := by
    unfold matchesSearch
    rw [hs]
    by_cases hse : s = "" <;> simp [hse, htrim]
  show ((t.userId == userId) && matchesStatus f t && matchesDue pd f t && matchesSearch f t)
      = ((t.userId == userId) && matchesStatus { f with search := none } t
          && matchesDue pd { f with search := none } t && matchesSearch { f with search := none } t)
  have h2 : matchesStatus { f with search := none } t = matchesStatus f t := rfl
  have h3 : matchesDue pd { f with search := none } t = matchesDue pd f t := rfl
  have h4 : matchesSearch { f with search := none } t = true := rfl
  rw [h1, h2, h3, h4]

/-- C8 counterexample: the empty string is a supplied status value that
is not a member of the enum, yet findAll succeeds, because the JS
truthiness guard skips the validation for an empty string. -/
theorem findAll_empty_status_counterexample :
    statusStrings.contains "" = false
    ∧ findAll (fun _ => none) { status := some "" } "owner" []
        = .ok { tasks := [], total := 0, page := 1, limit := 10, totalPages := 0 } := by
  constructor
  · rfl
  · rfl

/-- C8 amended: with a valid owner, findAll fails, always with
BadRequest and independently of the store, exactly when the page or
limit is out of range, a supplied non empty status is outside the enum,
or a supplied non empty dueDate is unparsable; an empty status or
dueDate string is ignored like an absent one, and a search string that
trims to empty is ignored rather than rejected. -/
theorem findAll_validation_spec (pd : String → Option Int) (f : FilterTasksDto)
    (userId : String) (db : List Task) (huid : userId ≠ "") :
    ((f.page.getD 1 < 1 ∨ f.limit.getD 10 < 1 ∨ f.limit.getD 10 > 100
        ∨ statusInvalid f = true ∨ dueDateInvalid pd f = true) →
      ∃ msg, findAll pd f userId db = .error (.badRequest msg)
        ∧ ∀ db2 : List Task, findAll pd f userId db2 = .error (.badRequest msg))
    ∧ (¬ (f.page.getD 1 < 1 ∨ f.limit.getD 10 < 1 ∨ f.limit.getD 10 > 100
        ∨ statusInvalid f = true ∨ dueDateInvalid pd f = true) →
      ∃ r, findAll pd f userId db = .ok r)
    ∧ (∀ s, f.search = some s → strTrim s = "" →
      findAll pd f userId db = findAll pd { f with search := none } userId db) := by
  refine ⟨fun hv => ?_, fun hv => ?_, fun s hsearch htrim => ?_⟩
  · by_cases hpg : f.page.getD 1 < 1 ∨ f.limit.getD 10 < 1 ∨ f.limit.getD 10 > 100
    · exact ⟨"Invalid pagination parameters", by simp [findAll, huid, hpg],
        fun db2 => by simp [findAll, huid, hpg]⟩
    · by_cases hsb : statusInvalid f = true
      · exact ⟨"Invalid task status", by simp [findAll, huid, hpg, hsb],
          fun db2 => by simp [findAll, huid, hpg, hsb]⟩
      · have hdb : dueDateInvalid pd f = true := by tauto
        exact ⟨"Invalid due date format", by simp [findAll, huid, hpg, hsb, hdb],
          fun db2 => by simp [findAll, huid, hpg, hsb, hdb]⟩
  · simp only [not_or] at hv
    obtain ⟨h1, h2, h3, h4, h5⟩ := hv
    exact ⟨_, findAll_ok pd f userId db huid (by omega) (by omega) (by omega)
      (by simpa using h4) (by simpa using h5)⟩
  · have hpredeq : ∀ t ∈ db, taskMatches pd f userId t
        = taskMatches pd { f with search := none } userId t :=
      fun t _ => taskMatches_search_trim pd f userId s hsearch htrim t
    by_cases hpg : f.page.getD 1 < 1 ∨ f.limit.getD 10 < 1 ∨ f.limit.getD 10 > 100
    · simp [findAll, huid, hpg]
    · by_cases hsb : statusInvalid f = true
      · have hsb2 : statusInvalid { f with search := none } = true := hsb
        simp [findAll, huid, hpg, hsb, hsb2]
      · by_cases hdb : dueDateInvalid pd f = true
        · have hdb2 : dueDateInvalid pd { f with search := none } = true := hdb
          have hsb2 : ¬ statusInvalid { f with search := none } = true := hsb
          simp [findAll, huid, hpg, hsb, hsb2, hdb, hdb2]
        · have hsb2 : ¬ statusInvalid { f with search := none } = true := hsb
          have hdb2 : ¬ dueDateInvalid pd { f with search := none } = true := hdb
          simp only [findAll, huid, hpg, hsb, hdb, hsb2, hdb2, if_false, if_neg]
          rw [List.filter_congr hpredeq]

/-- Witness for C8 amended: an out of range limit is rejected with
BadRequest on any store, a fully valid filter succeeds, and a
whitespace search behaves like no search at all. -/
theorem findAll_validation_spec_witness :
    (∃ msg, findAll (fun _ => none) { limit := some 101 } "owner" [] = .error (.badRequest msg)
       ∧ ∀ db2 : List Task, findAll (fun _ => none) { limit := some 101 } "owner" db2
           = .error (.badRequest msg))
    ∧ (∃ r, findAll (fun _ => none) { search := some "  " } "owner" [sampleTask] = .ok r)
    ∧ findAll (fun _ => none) { search := some "  " } "owner" [sampleTask]
        = findAll (fun _ => none) ({} : FilterTasksDto) "owner" [sampleTask] := by
  constructor
  · exact (findAll_validation_spec (fun _ => none) { limit := some 101 } "owner" []
      (by decide)).1 (by decide)
  constructor
  · exact (findAll_validation_spec (fun _ => none) { search := some "  " } "owner" [sampleTask]
      (by decide)).2.1 (by decide)
  · exact (findAll_validation_spec (fun _ => none) { search := some "  " } "owner" [sampleTask]
      (by decide)).2.2 "  " rfl (by decide)

end TaskMgmt
